import Mathlib

/-!
Shallow embedding of `app.py`, a SQLite-backed client/order manager.

The database state is the pair of tables `clientes` and `pedidos`, each a
list of rows in insertion order, together with the AUTOINCREMENT counters
(`INTEGER PRIMARY KEY AUTOINCREMENT` assigns max-ever-id + 1, starting at 1,
and never reuses an id even after deletions).

Faithfulness note: `get_conn` returns `sqlite3.connect(DB_PATH)` and no
connection ever executes `PRAGMA foreign_keys = ON`.  SQLite keeps
foreign-key enforcement OFF by default, so the declared
`FOREIGN KEY (cliente_id) REFERENCES clientes(id) ON DELETE CASCADE` is not
enforced at runtime: `DELETE FROM clientes` removes only client rows, and
`INSERT INTO pedidos` accepts any `cliente_id`.  The embedding models this
actual behavior.
-/

/-- Row of the `clientes` table: (id, nome, email, telefone).  `email` and
`telefone` are nullable TEXT columns. -/
structure Client where
  id : Nat
  nome : String
  email : Option String
  telefone : Option String
deriving Repr, DecidableEq

/-- Row of the `pedidos` table: (id, cliente_id, produto, valor, data).
`valor REAL` is modelled as `Rat`; no arithmetic is ever performed on it. -/
structure Pedido where
  id : Nat
  cliente_id : Nat
  produto : String
  valor : Rat
  data : String
deriving Repr, DecidableEq

/-- The whole database file: both tables plus the AUTOINCREMENT sequence of
each table (the next id to assign; SQLite starts at 1). -/
structure DB where
  clientes : List Client
  pedidos : List Pedido
  nextClienteId : Nat
  nextPedidoId : Nat
deriving Repr, DecidableEq

/-- State produced by `init_db` on a fresh database file: both tables empty,
AUTOINCREMENT sequences at 1. -/
def initDB : DB :=
  { clientes := [], pedidos := [], nextClienteId := 1, nextPedidoId := 1 }

/-- SELECT ... ORDER BY id: stable sort of client rows by ascending id. -/
def sortClientes (l : List Client) : List Client :=
  l.insertionSort (fun a b => a.id ≤ b.id)

/-- SELECT ... ORDER BY id: stable sort of order rows by ascending id. -/
def sortPedidos (l : List Pedido) : List Pedido :=
  l.insertionSort (fun a b => a.id ≤ b.id)

/-- `add_client(nome, email, telefone)`: INSERT INTO clientes, commit,
return `cur.lastrowid`.  AUTOINCREMENT assigns the table's next sequence
value and bumps the sequence. -/
def add_client (nome : String) (email telefone : Option String) (s : DB) :
    Nat × DB :=
  (s.nextClienteId,
   { s with
      clientes := s.clientes ++ [⟨s.nextClienteId, nome, email, telefone⟩]
      nextClienteId := s.nextClienteId + 1 })

/-- `get_clients()`: SELECT id, nome, email, telefone FROM clientes
ORDER BY id; returns all rows. -/
def get_clients (s : DB) : List Client :=
  sortClientes s.clientes

/-- `get_client_by_id(client_id)`: SELECT ... WHERE id = ?, `fetchone()`:
first matching row, or None. -/
def get_client_by_id (client_id : Nat) (s : DB) : Option Client :=
  s.clientes.find? (fun c => c.id = client_id)

/-- `update_client(client_id, nome, email, telefone)`: UPDATE clientes SET
... WHERE id = ?; returns `cur.rowcount > 0` (whether any row matched). -/
def update_client (client_id : Nat) (nome : String)
    (email telefone : Option String) (s : DB) : Bool × DB :=
  (s.clientes.any (fun c => c.id = client_id),
   { s with
      clientes := s.clientes.map (fun c =>
        if c.id = client_id then
          { c with nome := nome, email := email, telefone := telefone }
        else c) })

/-- `delete_client(client_id)`: DELETE FROM clientes WHERE id = ?; returns
`cur.rowcount > 0`.  Foreign keys are not enabled on the connection, so the
declared ON DELETE CASCADE does not fire: `pedidos` is untouched. -/
def delete_client (client_id : Nat) (s : DB) : Bool × DB :=
  (s.clientes.any (fun c => c.id = client_id),
   { s with clientes := s.clientes.filter (fun c => ¬ c.id = client_id) })

/-- `add_order(cliente_id, produto, valor, data)`: INSERT INTO pedidos,
commit, return `cur.lastrowid`.  No foreign-key check runs (enforcement is
off on the connection), so any `cliente_id` is accepted. -/
def add_order (cliente_id : Nat) (produto : String) (valor : Rat)
    (data : String) (s : DB) : Nat × DB :=
  (s.nextPedidoId,
   { s with
      pedidos := s.pedidos ++ [⟨s.nextPedidoId, cliente_id, produto, valor, data⟩]
      nextPedidoId := s.nextPedidoId + 1 })

/-- `get_orders()`: SELECT id, cliente_id, produto, valor, data FROM pedidos
ORDER BY id; returns all rows. -/
def get_orders (s : DB) : List Pedido :=
  sortPedidos s.pedidos

/-- `get_order_by_id(order_id)`: SELECT ... WHERE id = ?, `fetchone()`. -/
def get_order_by_id (order_id : Nat) (s : DB) : Option Pedido :=
  s.pedidos.find? (fun p => p.id = order_id)

/-- `update_order(order_id, cliente_id, produto, valor, data)`: UPDATE
pedidos SET ... WHERE id = ?; returns `cur.rowcount > 0`. -/
def update_order (order_id cliente_id : Nat) (produto : String) (valor : Rat)
    (data : String) (s : DB) : Bool × DB :=
  (s.pedidos.any (fun p => p.id = order_id),
   { s with
      pedidos := s.pedidos.map (fun p =>
        if p.id = order_id then
          { p with cliente_id := cliente_id, produto := produto,
                   valor := valor, data := data }
        else p) })

/-- `delete_order(order_id)`: DELETE FROM pedidos WHERE id = ?; returns
`cur.rowcount > 0`. -/
def delete_order (order_id : Nat) (s : DB) : Bool × DB :=
  (s.pedidos.any (fun p => p.id = order_id),
   { s with pedidos := s.pedidos.filter (fun p => ¬ p.id = order_id) })

/-- Result row of `list_orders_with_clients()`:
(p.id, p.produto, p.valor, p.data, c.id, c.nome, c.email, c.telefone). -/
structure JoinRow where
  pedido_id : Nat
  produto : String
  valor : Rat
  data : String
  cliente_id : Nat
  cliente_nome : String
  cliente_email : Option String
  cliente_telefone : Option String
deriving Repr, DecidableEq

/-- `list_orders_with_clients()`: SELECT ... FROM pedidos p JOIN clientes c
ON p.cliente_id = c.id ORDER BY p.id — an inner join, one result row per
matching (pedido, cliente) pair, ordered by ascending pedido id. -/
def list_orders_with_clients (s : DB) : List JoinRow :=
  (sortPedidos s.pedidos).flatMap (fun p =>
    (s.clientes.filter (fun c => c.id = p.cliente_id)).map (fun c =>
      ⟨p.id, p.produto, p.valor, p.data, c.id, c.nome, c.email, c.telefone⟩))

/-- One call into the data-access layer, as issued by the interactive shell:
the six mutating operations and the five read operations. -/
inductive Op where
  | addClient (nome : String) (email telefone : Option String)
  | updateClient (id : Nat) (nome : String) (email telefone : Option String)
  | deleteClient (id : Nat)
  | addOrder (cliente_id : Nat) (produto : String) (valor : Rat) (data : String)
  | updateOrder (id cliente_id : Nat) (produto : String) (valor : Rat) (data : String)
  | deleteOrder (id : Nat)
  | getClients
  | getClientById (id : Nat)
  | getOrders
  | getOrderById (id : Nat)
  | listOrdersWithClients
deriving Repr, DecidableEq

/-- Effect of one operation on the database file.  The five read operations
execute only a SELECT (no INSERT/UPDATE/DELETE, no commit), so they leave
the state as is. -/
def exec (s : DB) : Op → DB
  | .addClient n e t => (add_client n e t s).2
  | .updateClient i n e t => (update_client i n e t s).2
  | .deleteClient i => (delete_client i s).2
  | .addOrder c p v d => (add_order c p v d s).2
  | .updateOrder i c p v d => (update_order i c p v d s).2
  | .deleteOrder i => (delete_order i s).2
  | .getClients => s
  | .getClientById _ => s
  | .getOrders => s
  | .getOrderById _ => s
  | .listOrdersWithClients => s

/-- Whether an operation is one of the five reads (only executes SELECT). -/
def Op.isRead : Op → Bool
  | .getClients | .getClientById _ | .getOrders | .getOrderById _
  | .listOrdersWithClients => true
  | _ => false

/-- Run a sequence of data-access calls from a starting state. -/
def run (s : DB) : List Op → DB
  | [] => s
  | op :: ops => run (exec s op) ops

/-- The ids handed out by the `add_client` calls of a run, in call order
(`add_client` returns `cur.lastrowid`, which is the sequence value at the
time of the insert). -/
def issuedClientIds (s : DB) : List Op → List Nat
  | [] => []
  | op :: ops =>
      match op with
      | .addClient n e t => (add_client n e t s).1 :: issuedClientIds (exec s op) ops
      | _ => issuedClientIds (exec s op) ops

/-- The ids handed out by the `add_order` calls of a run, in call order. -/
def issuedPedidoIds (s : DB) : List Op → List Nat
  | [] => []
  | op :: ops =>
      match op with
      | .addOrder c p v d => (add_order c p v d s).1 :: issuedPedidoIds (exec s op) ops
      | _ => issuedPedidoIds (exec s op) ops

/-- Well-formedness of a database state: each table is stored in strictly
ascending id order and every stored id is below the table's AUTOINCREMENT
sequence value.  `initDB` satisfies it and every operation preserves it. -/
def WF (s : DB) : Prop :=
  List.Pairwise (fun a b : Client => a.id < b.id) s.clientes ∧
  List.Pairwise (fun a b : Pedido => a.id < b.id) s.pedidos ∧
  (∀ c ∈ s.clientes, c.id < s.nextClienteId) ∧
  (∀ p ∈ s.pedidos, p.id < s.nextPedidoId)

instance (s : DB) : Decidable (WF s) := by
  unfold WF
  infer_instance

theorem WF_initDB : WF initDB := by
  refine ⟨List.Pairwise.nil, List.Pairwise.nil, ?_, ?_⟩ <;> simp [initDB]

theorem nextClienteId_exec (s : DB) (op : Op) :
    s.nextClienteId ≤ (exec s op).nextClienteId := by
  cases op <;>
    simp [exec, add_client, update_client, delete_client, add_order,
      update_order, delete_order]

theorem nextPedidoId_exec (s : DB) (op : Op) :
    s.nextPedidoId ≤ (exec s op).nextPedidoId := by
  cases op <;>
    simp [exec, add_client, update_client, delete_client, add_order,
      update_order, delete_order]

theorem nextClienteId_run (s : DB) (ops : List Op) :
    s.nextClienteId ≤ (run s ops).nextClienteId := by
  induction ops generalizing s with
  | nil => exact Nat.le_refl _
  | cons op ops ih => exact Nat.le_trans (nextClienteId_exec s op) (ih (exec s op))

theorem nextPedidoId_run (s : DB) (ops : List Op) :
    s.nextPedidoId ≤ (run s ops).nextPedidoId := by
  induction ops generalizing s with
  | nil => exact Nat.le_refl _
  | cons op ops ih => exact Nat.le_trans (nextPedidoId_exec s op) (ih (exec s op))

theorem updClient_id (i : Nat) (n : String) (e t : Option String) (c : Client) :
    ((if c.id = i then { c with nome := n, email := e, telefone := t }
      else c) : Client).id = c.id := by
  split <;> rfl

theorem updPedido_id (i ci : Nat) (pr : String) (v : Rat) (d : String) (p : Pedido) :
    ((if p.id = i then { p with cliente_id := ci, produto := pr, valor := v, data := d }
      else p) : Pedido).id = p.id := by
  split <;> rfl

theorem WF_exec {s : DB} (op : Op) (h : WF s) : WF (exec s op) := by
  obtain ⟨hc, hp, hcb, hpb⟩ := h
  cases op with
  | addClient n e t =>
      refine ⟨?_, hp, ?_, hpb⟩
      · simp only [exec, add_client]
        rw [List.pairwise_append]
        refine ⟨hc, by simp, ?_⟩
        intro a ha b hb
        rw [List.mem_singleton] at hb
        subst hb
        exact hcb a ha
      · intro c hm
        simp only [exec, add_client, List.mem_append, List.mem_singleton] at hm
        rcases hm with h1 | h1
        · exact Nat.lt_trans (hcb c h1) (Nat.lt_succ_self _)
        · subst h1; exact Nat.lt_succ_self _
  | updateClient i n e t =>
      refine ⟨?_, hp, ?_, hpb⟩
      · simp only [exec, update_client]
        rw [List.pairwise_map]
        exact hc.imp (fun hab => by
          rw [updClient_id, updClient_id]; exact hab)
      · intro c hm
        simp only [exec, update_client, List.mem_map] at hm
        obtain ⟨a, ha, rfl⟩ := hm
        rw [updClient_id]
        exact hcb a ha
  | deleteClient i =>
      refine ⟨?_, hp, ?_, hpb⟩
      · simp only [exec, delete_client]
        exact List.Pairwise.filter _ hc
      · intro c hm
        simp only [exec, delete_client] at hm
        exact hcb c (List.mem_of_mem_filter hm)
  | addOrder ci pr v d =>
      refine ⟨hc, ?_, hcb, ?_⟩
      · simp only [exec, add_order]
        rw [List.pairwise_append]
        refine ⟨hp, by simp, ?_⟩
        intro a ha b hb
        rw [List.mem_singleton] at hb
        subst hb
        exact hpb a ha
      · intro p hm
        simp only [exec, add_order, List.mem_append, List.mem_singleton] at hm
        rcases hm with h1 | h1
        · exact Nat.lt_trans (hpb p h1) (Nat.lt_succ_self _)
        · subst h1; exact Nat.lt_succ_self _
  | updateOrder i ci pr v d =>
      refine ⟨hc, ?_, hcb, ?_⟩
      · simp only [exec, update_order]
        rw [List.pairwise_map]
        exact hp.imp (fun hab => by
          rw [updPedido_id, updPedido_id]; exact hab)
      · intro p hm
        simp only [exec, update_order, List.mem_map] at hm
        obtain ⟨a, ha, rfl⟩ := hm
        rw [updPedido_id]
        exact hpb a ha
  | deleteOrder i =>
      refine ⟨hc, ?_, hcb, ?_⟩
      · simp only [exec, delete_order]
        exact List.Pairwise.filter _ hp
      · intro p hm
        simp only [exec, delete_order] at hm
        exact hpb p (List.mem_of_mem_filter hm)
  | getClients => exact ⟨hc, hp, hcb, hpb⟩
  | getClientById i => exact ⟨hc, hp, hcb, hpb⟩
  | getOrders => exact ⟨hc, hp, hcb, hpb⟩
  | getOrderById i => exact ⟨hc, hp, hcb, hpb⟩
  | listOrdersWithClients => exact ⟨hc, hp, hcb, hpb⟩

theorem WF_run {s : DB} (ops : List Op) (h : WF s) : WF (run s ops) := by
  induction ops generalizing s with
  | nil => exact h
  | cons op ops ih => exact ih (WF_exec op h)

theorem next_le_issuedClientIds (s : DB) (ops : List Op) :
    ∀ x ∈ issuedClientIds s ops, s.nextClienteId ≤ x := by
  induction ops generalizing s with
  | nil => intro x hx; cases hx
  | cons op ops ih =>
      intro x hx
      cases op
      case addClient n e t =>
        simp only [issuedClientIds] at hx
        rcases List.mem_cons.mp hx with h1 | h1
        · exact Nat.le_of_eq h1.symm
        · exact Nat.le_trans (nextClienteId_exec s _) (ih _ x h1)
      all_goals
        simp only [issuedClientIds] at hx
        exact Nat.le_trans (nextClienteId_exec s _) (ih _ x hx)

theorem next_le_issuedPedidoIds (s : DB) (ops : List Op) :
    ∀ x ∈ issuedPedidoIds s ops, s.nextPedidoId ≤ x := by
  induction ops generalizing s with
  | nil => intro x hx; cases hx
  | cons op ops ih =>
      intro x hx
      cases op
      case addOrder ci pr v d =>
        simp only [issuedPedidoIds] at hx
        rcases List.mem_cons.mp hx with h1 | h1
        · exact Nat.le_of_eq h1.symm
        · exact Nat.le_trans (nextPedidoId_exec s _) (ih _ x h1)
      all_goals
        simp only [issuedPedidoIds] at hx
        exact Nat.le_trans (nextPedidoId_exec s _) (ih _ x hx)

theorem issuedClientIds_lt_run (s : DB) (ops : List Op) :
    ∀ x ∈ issuedClientIds s ops, x < (run s ops).nextClienteId := by
  induction ops generalizing s with
  | nil => intro x hx; cases hx
  | cons op ops ih =>
      intro x hx
      cases op
      case addClient n e t =>
        simp only [issuedClientIds] at hx
        rcases List.mem_cons.mp hx with h1 | h1
        · subst h1
          have h2 := nextClienteId_run (exec s (Op.addClient n e t)) ops
          exact Nat.lt_of_lt_of_le (Nat.lt_succ_self _) h2
        · exact ih _ x h1
      all_goals
        simp only [issuedClientIds] at hx
        exact ih _ x hx

theorem issuedPedidoIds_lt_run (s : DB) (ops : List Op) :
    ∀ x ∈ issuedPedidoIds s ops, x < (run s ops).nextPedidoId := by
  induction ops generalizing s with
  | nil => intro x hx; cases hx
  | cons op ops ih =>
      intro x hx
      cases op
      case addOrder ci pr v d =>
        simp only [issuedPedidoIds] at hx
        rcases List.mem_cons.mp hx with h1 | h1
        · subst h1
          have h2 := nextPedidoId_run (exec s (Op.addOrder ci pr v d)) ops
          exact Nat.lt_of_lt_of_le (Nat.lt_succ_self _) h2
        · exact ih _ x h1
      all_goals
        simp only [issuedPedidoIds] at hx
        exact ih _ x hx

theorem find?_append_new {α : Type} (q : α → Bool) (l : List α) (x : α)
    (hl : ∀ a ∈ l, ¬ q a = true) (hx : q x = true) :
    (l ++ [x]).find? q = some x := by
  rw [List.find?_append, List.find?_eq_none.mpr hl, List.find?_cons_of_pos _ hx]
  rfl

/-- C1: the claim says `delete_client` cascades, deleting every order that
references the client.  The code never runs `PRAGMA foreign_keys = ON`, so
SQLite ignores the declared ON DELETE CASCADE: at the concrete input below
(client 1 with one order referencing it), `delete_client 1` returns true and
removes the client, yet `get_orders` still returns the order. -/
theorem delete_client_no_cascade :
    (delete_client 1 (add_order 1 "Widget" (mkRat 999 100) "2024-01-01"
        (add_client "Ana" (some "a@x.com") (some "111") initDB).2).2).1 = true ∧
    get_client_by_id 1 (delete_client 1 (add_order 1 "Widget" (mkRat 999 100) "2024-01-01"
        (add_client "Ana" (some "a@x.com") (some "111") initDB).2).2).2 = none ∧
    get_orders (delete_client 1 (add_order 1 "Widget" (mkRat 999 100) "2024-01-01"
        (add_client "Ana" (some "a@x.com") (some "111") initDB).2).2).2 =
      [⟨1, 1, "Widget", mkRat 999 100, "2024-01-01"⟩] := by
  decide

/-- C2: the claim says the storage layer's referential constraint rejects an
order whose `cliente_id` matches no client.  With foreign-key enforcement
off (no PRAGMA is ever issued), the INSERT succeeds: on an empty database
(no client has id 7), `add_order` returns fresh id 1 and the orphan row is
persisted. -/
theorem add_order_no_fk_rejection :
    get_clients initDB = [] ∧
    (add_order 7 "Widget" (mkRat 999 100) "2024-01-01" initDB).1 = 1 ∧
    get_order_by_id 1 (add_order 7 "Widget" (mkRat 999 100) "2024-01-01" initDB).2 =
      some ⟨1, 7, "Widget", mkRat 999 100, "2024-01-01"⟩ := by
  decide

/-- C7: deleting the id just returned by `add_client` returns true, and a
subsequent `get_client_by_id` on that id returns none — in any starting
state. -/
theorem delete_after_add_removes (s : DB) (nome : String)
    (email telefone : Option String) :
    (delete_client (add_client nome email telefone s).1
        (add_client nome email telefone s).2).1 = true ∧
    get_client_by_id (add_client nome email telefone s).1
        (delete_client (add_client nome email telefone s).1
          (add_client nome email telefone s).2).2 = none := by
  constructor
  · simp [delete_client, add_client]
  · simp only [get_client_by_id, delete_client, add_client]
    rw [List.find?_eq_none]
    intro c hc
    have h1 := List.of_mem_filter hc
    simp at h1 ⊢
    exact h1

/-- C4: `update_client` and `update_order` on an id that is absent from the
respective table return false and return the state entirely unchanged (both
tables, both counters). -/
theorem update_nonexistent_unchanged (s : DB) (i j k : Nat)
    (nome produto data : String) (email telefone : Option String) (valor : Rat)
    (hc : ∀ c ∈ s.clientes, c.id ≠ i)
    (ho : ∀ p ∈ s.pedidos, p.id ≠ j) :
    update_client i nome email telefone s = (false, s) ∧
    update_order j k produto valor data s = (false, s) := by
  constructor
  · have h1 : s.clientes.any (fun c => c.id = i) = false := by
      rw [List.any_eq_false]
      intro c hcm
      simp
      exact hc c hcm
    have h2 : s.clientes.map (fun c =>
        if c.id = i then { c with nome := nome, email := email, telefone := telefone }
        else c) = s.clientes := by
      conv_rhs => rw [← List.map_id s.clientes]
      exact List.map_congr_left (fun c hcm => by rw [if_neg (hc c hcm)]; rfl)
    simp only [update_client]
    rw [h1, h2]
  · have h1 : s.pedidos.any (fun p => p.id = j) = false := by
      rw [List.any_eq_false]
      intro p hpm
      simp
      exact ho p hpm
    have h2 : s.pedidos.map (fun p =>
        if p.id = j then
          { p with cliente_id := k, produto := produto, valor := valor, data := data }
        else p) = s.pedidos := by
      conv_rhs => rw [← List.map_id s.pedidos]
      exact List.map_congr_left (fun p hpm => by rw [if_neg (ho p hpm)]; rfl)
    simp only [update_order]
    rw [h1, h2]

/-- C4 witness: on a database holding client 1 and order 1, updating client
id 99 and order id 99 both return false and change nothing. -/
theorem update_nonexistent_unchanged_witness :
    (∀ c ∈ (add_order 1 "P" 1 "2024-01-01" (add_client "Ana" none none initDB).2).2.clientes,
      c.id ≠ 99) ∧
    (∀ p ∈ (add_order 1 "P" 1 "2024-01-01" (add_client "Ana" none none initDB).2).2.pedidos,
      p.id ≠ 99) ∧
    (update_client 99 "N" none none
        (add_order 1 "P" 1 "2024-01-01" (add_client "Ana" none none initDB).2).2 =
      (false, (add_order 1 "P" 1 "2024-01-01" (add_client "Ana" none none initDB).2).2) ∧
     update_order 99 1 "Q" 2 "2024-02-02"
        (add_order 1 "P" 1 "2024-01-01" (add_client "Ana" none none initDB).2).2 =
      (false, (add_order 1 "P" 1 "2024-01-01" (add_client "Ana" none none initDB).2).2)) :=
  ⟨by decide, by decide,
   update_nonexistent_unchanged
     (add_order 1 "P" 1 "2024-01-01" (add_client "Ana" none none initDB).2).2
     99 99 1 "N" "Q" "2024-02-02" none none 2 (by decide) (by decide)⟩

/-- C3: in any state reachable from a fresh database, `add_client` returns an
id under which `get_client_by_id` finds a record with exactly the supplied
name, email and phone values, and that id was not issued by any earlier
`add_client` call of the run. -/
theorem add_client_roundtrip_fresh (ops : List Op) (nome : String)
    (email telefone : Option String) :
    get_client_by_id (add_client nome email telefone (run initDB ops)).1
        (add_client nome email telefone (run initDB ops)).2 =
      some ⟨(add_client nome email telefone (run initDB ops)).1, nome, email, telefone⟩ ∧
    (add_client nome email telefone (run initDB ops)).1 ∉ issuedClientIds initDB ops := by
  have hwf := WF_run ops WF_initDB
  constructor
  · exact find?_append_new _ _ _
      (fun c hcmem => by
        simp only [decide_eq_true_eq]
        exact Nat.ne_of_lt (hwf.2.2.1 c hcmem))
      (by simp [add_client])
  · intro hmem
    exact Nat.lt_irrefl _ (issuedClientIds_lt_run initDB ops _ hmem)

/-- C9: with foreign keys unenforced, `add_order` with a `cliente_id` that
matches no client succeeds anyway: it returns the fresh next order id, the
orphan row is persisted (found by `get_order_by_id`, listed by
`get_orders`), and no row of `list_orders_with_clients` ever carries the
orphan's id. -/
theorem add_order_orphan_succeeds (s : DB) (cid : Nat) (produto : String)
    (valor : Rat) (data : String) (hwf : WF s)
    (hnc : ∀ c ∈ s.clientes, c.id ≠ cid) :
    (add_order cid produto valor data s).1 = s.nextPedidoId ∧
    (∀ p ∈ s.pedidos, p.id ≠ (add_order cid produto valor data s).1) ∧
    get_order_by_id (add_order cid produto valor data s).1
        (add_order cid produto valor data s).2 =
      some ⟨s.nextPedidoId, cid, produto, valor, data⟩ ∧
    (⟨s.nextPedidoId, cid, produto, valor, data⟩ : Pedido) ∈
      get_orders (add_order cid produto valor data s).2 ∧
    ∀ row ∈ list_orders_with_clients (add_order cid produto valor data s).2,
      row.pedido_id ≠ (add_order cid produto valor data s).1 := by
  refine ⟨rfl, ?_, ?_, ?_, ?_⟩
  · intro p hp
    exact Nat.ne_of_lt (hwf.2.2.2 p hp)
  · exact find?_append_new _ _ _
      (fun p hp => by
        simp only [decide_eq_true_eq]
        exact Nat.ne_of_lt (hwf.2.2.2 p hp))
      (by simp [add_order])
  · rw [get_orders, sortPedidos]
    exact ((List.perm_insertionSort _ _).mem_iff).mpr (by simp [add_order])
  · intro row hrow
    rw [list_orders_with_clients, List.mem_flatMap] at hrow
    obtain ⟨p, hpmem, hrow⟩ := hrow
    rw [sortPedidos] at hpmem
    have hp' : p ∈ s.pedidos ++ [⟨s.nextPedidoId, cid, produto, valor, data⟩] :=
      (List.perm_insertionSort _ _).subset hpmem
    obtain ⟨c, hcf, rfl⟩ := List.mem_map.mp hrow
    rcases List.mem_append.mp hp' with h1 | h1
    · exact Nat.ne_of_lt (hwf.2.2.2 p h1)
    · rw [List.mem_singleton] at h1
      subst h1
      exfalso
      have hcm := List.mem_of_mem_filter hcf
      have h2 := List.of_mem_filter hcf
      simp only [decide_eq_true_eq] at h2
      exact hnc c hcm h2

/-- C9 witness: on an empty database (no client has id 7), adding an orphan
order with cliente_id 7 returns id 1, persists it, and the join lists no row
for it. -/
theorem add_order_orphan_succeeds_witness :
    WF initDB ∧ (∀ c ∈ initDB.clientes, c.id ≠ 7) ∧
    ((add_order 7 "W" 1 "2024-01-01" initDB).1 = initDB.nextPedidoId ∧
     (∀ p ∈ initDB.pedidos, p.id ≠ (add_order 7 "W" 1 "2024-01-01" initDB).1) ∧
     get_order_by_id (add_order 7 "W" 1 "2024-01-01" initDB).1
         (add_order 7 "W" 1 "2024-01-01" initDB).2 =
       some ⟨initDB.nextPedidoId, 7, "W", 1, "2024-01-01"⟩ ∧
     (⟨initDB.nextPedidoId, 7, "W", 1, "2024-01-01"⟩ : Pedido) ∈
       get_orders (add_order 7 "W" 1 "2024-01-01" initDB).2 ∧
     ∀ row ∈ list_orders_with_clients (add_order 7 "W" 1 "2024-01-01" initDB).2,
       row.pedido_id ≠ (add_order 7 "W" 1 "2024-01-01" initDB).1) :=
  ⟨by decide, by decide,
   add_order_orphan_succeeds initDB 7 "W" 1 "2024-01-01" (by decide) (by decide)⟩

/-- C5: every row of `list_orders_with_clients` carries the fields of a
client present in the clientes table whose id equals the row's cliente_id,
joined to an order present in the pedidos table that references exactly that
client (inner-join semantics). -/
theorem join_rows_have_live_client (s : DB) (row : JoinRow)
    (h : row ∈ list_orders_with_clients s) :
    ∃ c ∈ s.clientes, c.id = row.cliente_id ∧ c.nome = row.cliente_nome ∧
      c.email = row.cliente_email ∧ c.telefone = row.cliente_telefone ∧
      ∃ p ∈ s.pedidos, p.id = row.pedido_id ∧ p.cliente_id = c.id := by
  rw [list_orders_with_clients, List.mem_flatMap] at h
  obtain ⟨p, hp, h⟩ := h
  rw [sortPedidos] at hp
  have hp' : p ∈ s.pedidos := (List.perm_insertionSort _ _).subset hp
  obtain ⟨c, hcf, rfl⟩ := List.mem_map.mp h
  have hcm := List.mem_of_mem_filter hcf
  have hcid := List.of_mem_filter hcf
  simp only [decide_eq_true_eq] at hcid
  exact ⟨c, hcm, rfl, rfl, rfl, rfl, p, hp', rfl, hcid.symm⟩

/-- C5 witness: with client 1 and order 1 referencing it, the single join
row is backed by that live client and that order. -/
theorem join_rows_have_live_client_witness :
    ((⟨1, "Widget", mkRat 999 100, "2024-01-01", 1, "Ana", some "a@x.com",
        some "111"⟩ : JoinRow) ∈
      list_orders_with_clients (add_order 1 "Widget" (mkRat 999 100) "2024-01-01"
        (add_client "Ana" (some "a@x.com") (some "111") initDB).2).2) ∧
    ∃ c ∈ (add_order 1 "Widget" (mkRat 999 100) "2024-01-01"
        (add_client "Ana" (some "a@x.com") (some "111") initDB).2).2.clientes,
      c.id = (⟨1, "Widget", mkRat 999 100, "2024-01-01", 1, "Ana", some "a@x.com",
        some "111"⟩ : JoinRow).cliente_id ∧
      c.nome = (⟨1, "Widget", mkRat 999 100, "2024-01-01", 1, "Ana", some "a@x.com",
        some "111"⟩ : JoinRow).cliente_nome ∧
      c.email = (⟨1, "Widget", mkRat 999 100, "2024-01-01", 1, "Ana", some "a@x.com",
        some "111"⟩ : JoinRow).cliente_email ∧
      c.telefone = (⟨1, "Widget", mkRat 999 100, "2024-01-01", 1, "Ana", some "a@x.com",
        some "111"⟩ : JoinRow).cliente_telefone ∧
      ∃ p ∈ (add_order 1 "Widget" (mkRat 999 100) "2024-01-01"
          (add_client "Ana" (some "a@x.com") (some "111") initDB).2).2.pedidos,
        p.id = (⟨1, "Widget", mkRat 999 100, "2024-01-01", 1, "Ana", some "a@x.com",
          some "111"⟩ : JoinRow).pedido_id ∧ p.cliente_id = c.id :=
  ⟨by decide, join_rows_have_live_client _ _ (by decide)⟩

theorem issuedClientIds_pairwise (s : DB) (ops : List Op) :
    List.Pairwise (· < ·) (issuedClientIds s ops) := by
  induction ops generalizing s with
  | nil => exact List.Pairwise.nil
  | cons op ops ih =>
      cases op
      case addClient n e t =>
        simp only [issuedClientIds]
        refine List.Pairwise.cons ?_ (ih _)
        intro y hy
        exact Nat.lt_of_lt_of_le (Nat.lt_succ_self _)
          (next_le_issuedClientIds (exec s (Op.addClient n e t)) ops y hy)
      all_goals
        simp only [issuedClientIds]
        exact ih _

theorem issuedPedidoIds_pairwise (s : DB) (ops : List Op) :
    List.Pairwise (· < ·) (issuedPedidoIds s ops) := by
  induction ops generalizing s with
  | nil => exact List.Pairwise.nil
  | cons op ops ih =>
      cases op
      case addOrder ci pr v d =>
        simp only [issuedPedidoIds]
        refine List.Pairwise.cons ?_ (ih _)
        intro y hy
        exact Nat.lt_of_lt_of_le (Nat.lt_succ_self _)
          (next_le_issuedPedidoIds (exec s (Op.addOrder ci pr v d)) ops y hy)
      all_goals
        simp only [issuedPedidoIds]
        exact ih _

/-- C6: along any sequence of data-access calls (adds, updates, deletes,
reads) from any state, the ids handed out by `add_client` are strictly
increasing in call order, and likewise for `add_order` — so no id is ever
reused within a table, even after deletions. -/
theorem issued_ids_strictly_monotonic (s : DB) (ops : List Op) :
    List.Pairwise (· < ·) (issuedClientIds s ops) ∧
    List.Pairwise (· < ·) (issuedPedidoIds s ops) :=
  ⟨issuedClientIds_pairwise s ops, issuedPedidoIds_pairwise s ops⟩

/-- C8: on a well-formed state, `get_clients` returns exactly the stored
clientes table in strictly ascending id order, and `get_orders` returns
exactly the stored pedidos table in strictly ascending id order. -/
theorem lists_sorted_ascending (s : DB) (hwf : WF s) :
    get_clients s = s.clientes ∧
    List.Pairwise (fun a b : Client => a.id < b.id) (get_clients s) ∧
    get_orders s = s.pedidos ∧
    List.Pairwise (fun a b : Pedido => a.id < b.id) (get_orders s) := by
  obtain ⟨hc, hp, -, -⟩ := hwf
  have hc' : List.Sorted (fun a b : Client => a.id ≤ b.id) s.clientes :=
    hc.imp (fun h => Nat.le_of_lt h)
  have hp' : List.Sorted (fun a b : Pedido => a.id ≤ b.id) s.pedidos :=
    hp.imp (fun h => Nat.le_of_lt h)
  have e1 : get_clients s = s.clientes := hc'.insertionSort_eq
  have e2 : get_orders s = s.pedidos := hp'.insertionSort_eq
  refine ⟨e1, ?_, e2, ?_⟩
  · rw [e1]; exact hc
  · rw [e2]; exact hp

/-- C8 witness: with clients 1 and 2 and order 1 stored, both listings
return the stored tables in strictly ascending id order. -/
theorem lists_sorted_ascending_witness :
    WF (add_order 1 "P" 1 "2024-01-01" (add_client "Bia" none none
        (add_client "Ana" none none initDB).2).2).2 ∧
    (get_clients (add_order 1 "P" 1 "2024-01-01" (add_client "Bia" none none
        (add_client "Ana" none none initDB).2).2).2 =
      (add_order 1 "P" 1 "2024-01-01" (add_client "Bia" none none
        (add_client "Ana" none none initDB).2).2).2.clientes ∧
     List.Pairwise (fun a b : Client => a.id < b.id)
       (get_clients (add_order 1 "P" 1 "2024-01-01" (add_client "Bia" none none
         (add_client "Ana" none none initDB).2).2).2) ∧
     get_orders (add_order 1 "P" 1 "2024-01-01" (add_client "Bia" none none
        (add_client "Ana" none none initDB).2).2).2 =
      (add_order 1 "P" 1 "2024-01-01" (add_client "Bia" none none
        (add_client "Ana" none none initDB).2).2).2.pedidos ∧
     List.Pairwise (fun a b : Pedido => a.id < b.id)
       (get_orders (add_order 1 "P" 1 "2024-01-01" (add_client "Bia" none none
         (add_client "Ana" none none initDB).2).2).2)) :=
  ⟨by decide, lists_sorted_ascending _ (by decide)⟩

/-- C10: a run consisting only of read operations (the five SELECT-only
calls) returns the state unchanged: interleaving any number of reads between
two mutations neither observes nor causes any difference in stored state. -/
theorem reads_preserve_state (s : DB) (ops : List Op)
    (h : ∀ op ∈ ops, op.isRead = true) : run s ops = s := by
  induction ops with
  | nil => rfl
  | cons op ops ih =>
      have hop := h op (List.mem_cons_self op ops)
      have h1 : exec s op = s := by
        cases op <;> first | rfl | simp [Op.isRead] at hop
      show run (exec s op) ops = s
      rw [h1]
      exact ih (fun o ho => h o (List.mem_cons_of_mem op ho))

/-- C10 witness: three reads in a row leave a one-client database exactly as
it was. -/
theorem reads_preserve_state_witness :
    (∀ op ∈ ([Op.getClients, Op.getOrderById 1, Op.listOrdersWithClients] : List Op),
      op.isRead = true) ∧
    run (add_client "Ana" none none initDB).2
        [Op.getClients, Op.getOrderById 1, Op.listOrdersWithClients] =
      (add_client "Ana" none none initDB).2 :=
  ⟨by decide, reads_preserve_state _ _ (by decide)⟩
